import Mathlib

/-!
Shallow embedding of the task-tracker state hook in `src/hooks/useTasks.ts`
(repository `task-glitch`).

Modelling conventions:
* JS numbers (`revenue`, `timeTaken`) are modelled as rationals `ℚ`;
  `Number(x)` coercions that may produce `NaN` are modelled by `Option ℚ`
  raw fields, with `none` standing for a missing or non-numeric value.
* Timestamps are modelled as integers (milliseconds since the epoch).
  `new Date(ms).toISOString()` and `new Date(iso).getTime()` are inverse
  bijections on the valid range, so an ISO string is represented directly
  by its millisecond value.  Raw timestamp fields are `Option Int`
  (`none` = absent or falsy); a raw record whose timestamp field is
  present is assumed parseable (an unparseable one would make the original
  code throw inside `toISOString`, outside the behaviour claimed here).
* `crypto.randomUUID()` is modelled as a generative supply of ids that
  never collide with each other nor with string ids found in the data:
  `TaskId.gen n` with a counter threaded through, versus `TaskId.str s`
  for ids taken verbatim from records or callers.
* `Date.now()` / `new Date()` is passed in as an explicit `now : Int`
  parameter wherever the source reads the clock.
-/

namespace TaskGlitch

/-- Priority enum of a task: `High`, `Medium` or `Low`. -/
inductive Priority where
  | high
  | medium
  | low
deriving DecidableEq, Repr

/-- Status enum of a task: `Todo`, `In Progress` or `Done`. -/
inductive Status where
  | todo
  | inProgress
  | done
deriving DecidableEq, Repr

/-- Task identifiers: either a string id taken from a record or a caller,
or a generated id (`crypto.randomUUID()`), modelled as a fresh counter
value that never collides with a string id. -/
inductive TaskId where
  | str (s : String)
  | gen (n : Nat)
deriving DecidableEq, Repr

/-- The `Task` record of `src/types`, as stored by the hook. -/
structure Task where
  id : TaskId
  title : String
  revenue : ℚ
  timeTaken : ℚ
  priority : Priority
  status : Status
  notes : Option String
  createdAt : Int
  completedAt : Option Int
deriving DecidableEq, Repr

/-- A raw, possibly malformed input record as consumed by
`normalizeTasks` / `sanitizeTasks`.  Every field is optional: `none`
models an absent, falsy, non-string or non-numeric (NaN) value. -/
structure RawTask where
  id : Option String
  title : Option String
  revenue : Option ℚ
  timeTaken : Option ℚ
  priority : Option Priority
  status : Option Status
  notes : Option String
  createdAt : Option Int
  completedAt : Option Int
deriving DecidableEq, Repr

/-- A `Partial<Task>` patch as accepted by `updateTask`: each field is
either absent (`none`) or supplies a replacement value. -/
structure TaskPatch where
  id : Option TaskId := none
  title : Option String := none
  revenue : Option ℚ := none
  timeTaken : Option ℚ := none
  priority : Option Priority := none
  status : Option Status := none
  notes : Option String := none
  createdAt : Option Int := none
  completedAt : Option Int := none
deriving DecidableEq, Repr

/-- The argument of `addTask`: `Omit<Task, 'id'> & { id?: string }`.
`createdAt` and `completedAt` are present in the type but are overridden
by `addTask` itself. -/
structure AddInput where
  id : Option TaskId := none
  title : String
  revenue : ℚ
  timeTaken : ℚ
  priority : Priority
  status : Status
  notes : Option String := none
  createdAt : Int := 0
  completedAt : Option Int := none
deriving DecidableEq, Repr

/-- The store state owned by the hook: the task list plus the single
cached undo candidate (`lastDeleted`). -/
structure StoreState where
  tasks : List Task
  lastDeleted : Option Task
deriving DecidableEq, Repr

/-- Performance grade enum.  `src/utils/logic` is not among the provided
sources; the spec states the grade is a step function of the average ROI
into fixed bands, with `Needs Improvement` the lowest band (the value
stored in `INITIAL_METRICS` in `useTasks.ts`). -/
inductive Grade where
  | needsImprovement
  | good
  | excellent
deriving DecidableEq, Repr

/-- The aggregate `Metrics` record. -/
structure Metrics where
  totalRevenue : ℚ
  totalTimeTaken : ℚ
  timeEfficiencyPct : ℚ
  revenuePerHour : ℚ
  averageROI : ℚ
  performanceGrade : Grade
deriving DecidableEq, Repr

/-- `INITIAL_METRICS` from `useTasks.ts` lines 28-35. -/
def INITIAL_METRICS : Metrics :=
  { totalRevenue := 0
    totalTimeTaken := 0
    timeEfficiencyPct := 0
    revenuePerHour := 0
    averageROI := 0
    performanceGrade := Grade.needsImprovement }

/-- One step of `normalizeTasks` (lines 46-60): the record at index
`idx`, with `now = Date.now()`.  Output is again a `RawTask` because the
source only casts to `Task` (`as Task`) without validating `id`, `title`,
`priority` or `status`. -/
def normalizeRecord (now : Int) (idx : Nat) (r : RawTask) : RawTask :=
  let created : Int := r.createdAt.getD (now - ((idx : Int) + 1) * 24 * 3600 * 1000)
  let completed : Option Int :=
    match r.completedAt with
    | some c => some c
    | none => if r.status = some Status.done then some (created + 24 * 3600 * 1000) else none
  { id := r.id
    title := r.title
    revenue := r.revenue
    timeTaken := some (match r.timeTaken with
      | some v => if 0 < v then v else 1
      | none => 1)
    priority := r.priority
    status := r.status
    notes := r.notes
    createdAt := some created
    completedAt := completed }

/-- Recursive worker for `normalizeTasks`, carrying the map index. -/
def normalizeGo (now : Int) : List RawTask → Nat → List RawTask
  | [], _ => []
  | r :: rest, idx => normalizeRecord now idx r :: normalizeGo now rest (idx + 1)

/-- `normalizeTasks` (lines 44-61). -/
def normalizeTasks (now : Int) (input : List RawTask) : List RawTask :=
  normalizeGo now input 0

/-- The sanitized fields of one record of `sanitizeTasks` (lines 66-74),
before id de-duplication: `now` models the per-record `new Date()`. -/
def sanStatus (r : RawTask) : Status := r.status.getD Status.todo

/-- Sanitized `createdAt` (line 73): the record value or the current time. -/
def sanCreatedAt (now : Int) (r : RawTask) : Int := r.createdAt.getD now

/-- Sanitized `completedAt` (line 74): the record value, else the
record's own sanitized `createdAt` when status is `Done`, else absent. -/
def sanCompletedAt (now : Int) (r : RawTask) : Option Int :=
  match r.completedAt with
  | some c => some c
  | none => if sanStatus r = Status.done then some (sanCreatedAt now r) else none

/-- Sanitized `timeTaken` (line 69): kept when positive, else forced to 1
(`Number(t?.timeTaken) > 0 ? Number(t.timeTaken) : 1`). -/
def sanTimeTaken (r : RawTask) : ℚ :=
  match r.timeTaken with
  | some v => if 0 < v then v else 1
  | none => 1

/-- Sanitized `title` (line 67): trimmed when a non-blank string,
else `Untitled {idx+1}`. -/
def sanTitle (idx : Nat) (r : RawTask) : String :=
  match r.title with
  | some s => if s.trim ≠ "" then s.trim else s!"Untitled {idx + 1}"
  | none => s!"Untitled {idx + 1}"

/-- Sanitized `notes` (line 72): trimmed when non-blank, else dropped. -/
def sanNotes (r : RawTask) : Option String :=
  match r.notes with
  | some s => if s.trim ≠ "" then some s.trim else none
  | none => none

/-- The id resolution of `sanitizeTasks` (lines 66 and 76-80): take the
record's id when it is a non-empty string, otherwise generate one; then
generate a fresh replacement id when the chosen id was already seen.
Returns the final id and the updated generated-id counter. -/
def sanId (seen : List TaskId) (ctr : Nat) (r : RawTask) : TaskId × Nat :=
  let first : TaskId × Nat :=
    match r.id with
    | some s => if s ≠ "" then (TaskId.str s, ctr) else (TaskId.gen ctr, ctr + 1)
    | none => (TaskId.gen ctr, ctr + 1)
  if first.1 ∈ seen then (TaskId.gen first.2, first.2 + 1) else first

/-- One step of `sanitizeTasks` (lines 65-82).  Returns the produced
task together with the updated `seen` set (line 80 records the final id
as seen) and the generated-id counter. -/
def sanitizeRecord (now : Int) (idx : Nat) (seen : List TaskId) (ctr : Nat)
    (r : RawTask) : Task × List TaskId × Nat :=
  let fp := sanId seen ctr r
  (⟨fp.1, sanTitle idx r, r.revenue.getD 0, sanTimeTaken r,
    r.priority.getD Priority.medium, sanStatus r, sanNotes r,
    sanCreatedAt now r, sanCompletedAt now r⟩,
   fp.1 :: seen, fp.2)

/-- Recursive worker for `sanitizeTasks`, threading the map index, the
`seen` set and the generated-id counter. -/
def sanitizeGo (now : Int) : List RawTask → Nat → List TaskId → Nat → List Task
  | [], _, _, _ => []
  | r :: rest, idx, seen, ctr =>
    let step := sanitizeRecord now idx seen ctr r
    step.1 :: sanitizeGo now rest (idx + 1) step.2.1 step.2.2

/-- `sanitizeTasks` (lines 63-83). -/
def sanitizeTasks (now : Int) (input : List RawTask) : List Task :=
  sanitizeGo now input 0 [] 0

/-- `addTask` (lines 135-144): appends one task built by spreading the
input and then overriding `id`, `timeTaken`, `createdAt`, `completedAt`.
`fresh` models the `crypto.randomUUID()` result used when no id is
supplied; `now` models `new Date()`. -/
def addTask (t : AddInput) (now : Int) (fresh : TaskId) (s : StoreState) : StoreState :=
  let id := t.id.getD fresh
  let timeTaken : ℚ := if t.timeTaken ≤ 0 then 1 else t.timeTaken
  let createdAt := now
  let completedAt : Option Int := if t.status = Status.done then some createdAt else none
  { s with tasks := s.tasks ++
      [⟨id, t.title, t.revenue, timeTaken, t.priority, t.status, t.notes,
        createdAt, completedAt⟩] }

/-- The shallow merge `{ ...t, ...patch }` of `updateTask` (line 150). -/
def mergePatch (p : TaskPatch) (t : Task) : Task :=
  { id := p.id.getD t.id
    title := p.title.getD t.title
    revenue := p.revenue.getD t.revenue
    timeTaken := p.timeTaken.getD t.timeTaken
    priority := p.priority.getD t.priority
    status := p.status.getD t.status
    notes := match p.notes with
      | some s => some s
      | none => t.notes
    createdAt := p.createdAt.getD t.createdAt
    completedAt := match p.completedAt with
      | some c => some c
      | none => t.completedAt }

/-- First pass of `updateTask` (lines 148-155): merge the patch into the
matching task and stamp `completedAt` on a non-Done-to-Done transition
when the merged record has no `completedAt`. -/
def updateMerge (i : TaskId) (p : TaskPatch) (now : Int) (t : Task) : Task :=
  if t.id ≠ i then t
  else
    let merged := mergePatch p t
    if t.status ≠ Status.done ∧ merged.status = Status.done ∧ merged.completedAt = none
    then { merged with completedAt := some now }
    else merged

/-- Second pass of `updateTask` (line 157): re-validate `timeTaken > 0`
on the task whose id still equals the targeted id. -/
def revalidate (i : TaskId) (p : TaskPatch) (t : Task) : Task :=
  if t.id = i ∧ p.timeTaken.getD t.timeTaken ≤ 0 then { t with timeTaken := 1 } else t

/-- `updateTask` (lines 146-159). -/
def updateTask (i : TaskId) (p : TaskPatch) (now : Int) (s : StoreState) : StoreState :=
  { s with tasks := (s.tasks.map (updateMerge i p now)).map (revalidate i p) }

/-- `deleteTask` (lines 161-167): filters out the tasks with the given
id, and stores `prev.find(...) || null` as the undo candidate — `none`
when no task matches. -/
def deleteTask (i : TaskId) (s : StoreState) : StoreState :=
  { tasks := s.tasks.filter (fun t => decide (t.id ≠ i))
    lastDeleted := s.tasks.find? (fun t => decide (t.id = i)) }

/-- `undoDelete` (lines 169-173): re-appends the cached task at the end
and clears the cache; no-op when there is no candidate. -/
def undoDelete (s : StoreState) : StoreState :=
  match s.lastDeleted with
  | none => s
  | some t => { tasks := s.tasks ++ [t], lastDeleted := none }

/-- `computeTotalRevenue`: the spec fixes `totalRevenue` as the sum of
`revenue` (the implementation lives in `src/utils/logic`, which is not
among the provided sources). -/
def computeTotalRevenue (ts : List Task) : ℚ := (ts.map Task.revenue).sum

/-- Total time, computed inline in the `metrics` memo (line 127):
`tasks.reduce((s, t) => s + t.timeTaken, 0)`. -/
def computeTotalTimeTaken (ts : List Task) : ℚ := (ts.map Task.timeTaken).sum

/-- Modelled from the spec: per-task ROI, a ratio derived from revenue
and time invested (`src/utils/logic` is not among the provided sources). -/
def roiOf (t : Task) : ℚ := t.revenue / t.timeTaken

/-- Modelled from the spec: `averageROI` is the mean of per-task ROI. -/
def computeAverageROI (ts : List Task) : ℚ := (ts.map roiOf).sum / (ts.length : ℚ)

/-- Modelled from the spec: revenue per hour, a ratio of total revenue
over total time (exact formula product-specific per the spec). -/
def computeRevenuePerHour (ts : List Task) : ℚ :=
  computeTotalRevenue ts / computeTotalTimeTaken ts

/-- Modelled from the spec: a time-efficiency percentage over
revenue/time (exact formula product-specific per the spec). -/
def computeTimeEfficiency (ts : List Task) : ℚ :=
  100 * ((ts.filter (fun t => decide (t.status = Status.done))).map Task.timeTaken).sum /
    computeTotalTimeTaken ts

/-- Modelled from the spec: the performance grade is a deterministic
step function of the average ROI into fixed bands, with
`Needs Improvement` the lowest band. -/
def computePerformanceGrade (roi : ℚ) : Grade :=
  if roi < 1 then Grade.needsImprovement
  else if roi < 5 then Grade.good
  else Grade.excellent

/-- The `metrics` memo (lines 124-133): the fixed `INITIAL_METRICS`
value on an empty list, aggregates otherwise. -/
def metricsOf (ts : List Task) : Metrics :=
  if ts.length = 0 then INITIAL_METRICS
  else
    { totalRevenue := computeTotalRevenue ts
      totalTimeTaken := computeTotalTimeTaken ts
      timeEfficiencyPct := computeTimeEfficiency ts
      revenuePerHour := computeRevenuePerHour ts
      averageROI := computeAverageROI ts
      performanceGrade := computePerformanceGrade (computeAverageROI ts) }

/-! Concrete sample data used by witnesses and counterexamples. -/

/-- A sample `Todo` task with id `"a"`. -/
def tA : Task :=
  ⟨TaskId.str "a", "A", 10, 5, Priority.high, Status.todo, none, 100, none⟩

/-- A sample `Done` task with id `"b"`. -/
def tB : Task :=
  ⟨TaskId.str "b", "B", 20, 2, Priority.low, Status.done, none, 200, some 300⟩

/-- A sample store holding `tA` and `tB`, with `tA` cached for undo. -/
def s0 : StoreState := ⟨[tA, tB], some tA⟩

/-! Helper lemmas. -/

/-- `updateMerge` leaves a task with a different id unchanged. -/
theorem updateMerge_of_ne (i : TaskId) (p : TaskPatch) (now : Int) (t : Task)
    (h : t.id ≠ i) : updateMerge i p now t = t := by
  unfold updateMerge
  rw [if_pos h]

/-- `revalidate` leaves a task with a different id unchanged. -/
theorem revalidate_of_ne (i : TaskId) (p : TaskPatch) (t : Task)
    (h : t.id ≠ i) : revalidate i p t = t := by
  unfold revalidate
  rw [if_neg (fun hc => h hc.1)]

/-- Neither pass of `updateTask` ever writes `createdAt` beyond the
merge itself, so a patch without `createdAt` preserves the field. -/
theorem updateStep_createdAt (i : TaskId) (p : TaskPatch) (now : Int) (t : Task)
    (hp : p.createdAt = none) :
    (revalidate i p (updateMerge i p now t)).createdAt = t.createdAt := by
  unfold updateMerge revalidate mergePatch
  simp only [hp]
  split <;> (try split) <;> (try split) <;> simp_all

/-! ### C1: mutations on an unknown id -/

/-- C1 counterexample: with `tA` cached as the undo candidate, deleting
an id that is absent from the task list leaves the task list alone but
overwrites the cached undo candidate with `none`, so the store state is
not unchanged as the claim states. -/
theorem deleteTask_unknown_id_clears_undo :
    deleteTask (TaskId.str "zzz") s0 ≠ s0 ∧
      (deleteTask (TaskId.str "zzz") s0).tasks = s0.tasks ∧
      (deleteTask (TaskId.str "zzz") s0).lastDeleted = none ∧
      s0.lastDeleted = some tA := by
  decide

/-- C1 (amended): for every store state and id not present in the task
list, `updateTask` leaves the entire state unchanged, and `deleteTask`
leaves the task list unchanged and signals no error, but overwrites the
cached undo candidate with `none`. -/
theorem unknown_id_mutation_effects (s : StoreState) (i : TaskId) (p : TaskPatch)
    (now : Int) (habs : ∀ t ∈ s.tasks, t.id ≠ i) :
    updateTask i p now s = s ∧ (deleteTask i s).tasks = s.tasks ∧
      (deleteTask i s).lastDeleted = none := by
  refine ⟨?_, ?_, ?_⟩
  · have h2 : s.tasks.map (updateMerge i p now) = s.tasks := by
      have := List.map_congr_left (fun t ht => updateMerge_of_ne i p now t (habs t ht))
      simpa using this
    have h3 : s.tasks.map (revalidate i p) = s.tasks := by
      have := List.map_congr_left (fun t ht => revalidate_of_ne i p t (habs t ht))
      simpa using this
    show ({ s with tasks := (s.tasks.map (updateMerge i p now)).map (revalidate i p) } : StoreState) = s
    rw [h2, h3]
  · exact List.filter_eq_self.mpr (fun t ht => decide_eq_true (habs t ht))
  · exact List.find?_eq_none.mpr (fun t ht => by simpa using habs t ht)

/-- C1 witness: the amended statement at a concrete store and id. -/
theorem unknown_id_mutation_effects_witness :
    updateTask (TaskId.str "zzz") {} 7 s0 = s0 ∧
      (deleteTask (TaskId.str "zzz") s0).tasks = s0.tasks ∧
      (deleteTask (TaskId.str "zzz") s0).lastDeleted = none :=
  unknown_id_mutation_effects s0 (TaskId.str "zzz") {} 7 (by decide)

/-! ### C2: delete then undo -/

/-- C2: deleting a present task then undoing re-appends exactly that
task (same field values) at the end of the list; after two successive
deletions of present ids a single undo restores only the second deleted
task — the first stays gone — and a further undo is a no-op. -/
theorem delete_then_undo_restores (s : StoreState) (i1 i2 : TaskId) (t1 t2 : Task)
    (h1 : s.tasks.find? (fun t => decide (t.id = i1)) = some t1)
    (h2 : (deleteTask i1 s).tasks.find? (fun t => decide (t.id = i2)) = some t2) :
    (undoDelete (deleteTask i1 s)).tasks.getLast? = some t1 ∧
      (undoDelete (deleteTask i2 (deleteTask i1 s))).tasks.getLast? = some t2 ∧
      t1 ∉ (undoDelete (deleteTask i2 (deleteTask i1 s))).tasks ∧
      undoDelete (undoDelete (deleteTask i2 (deleteTask i1 s))) =
        undoDelete (deleteTask i2 (deleteTask i1 s)) := by
  have ht1 : t1.id = i1 := by simpa using List.find?_some h1
  have ht2 : t2.id = i2 := by simpa using List.find?_some h2
  have ht2mem : t2 ∈ (deleteTask i1 s).tasks := List.mem_of_find?_eq_some h2
  have ht2ne : t2.id ≠ i1 := by
    have := (List.mem_filter.mp ht2mem).2
    simpa using this
  have hd1 : deleteTask i1 s =
      ⟨s.tasks.filter (fun t => decide (t.id ≠ i1)), some t1⟩ := by
    unfold deleteTask
    rw [h1]
  have hd2 : deleteTask i2 (deleteTask i1 s) =
      ⟨(deleteTask i1 s).tasks.filter (fun t => decide (t.id ≠ i2)), some t2⟩ := by
    show (⟨(deleteTask i1 s).tasks.filter (fun t => decide (t.id ≠ i2)),
      (deleteTask i1 s).tasks.find? (fun t => decide (t.id = i2))⟩ : StoreState) = _
    rw [h2]
  refine ⟨?_, ?_, ?_, ?_⟩
  · rw [hd1]
    exact List.getLast?_concat _
  · rw [hd2]
    exact List.getLast?_concat _
  · rw [hd2]
    intro hmem
    rcases List.mem_append.mp hmem with hin | hone
    · have hin1 : t1 ∈ (deleteTask i1 s).tasks := (List.mem_filter.mp hin).1
      have : t1.id ≠ i1 := by
        have := (List.mem_filter.mp hin1).2
        simpa using this
      exact this ht1
    · have : t1 = t2 := by simpa using hone
      exact ht2ne (this ▸ ht1)
  · rw [hd2]
    rfl

/-- C2 witness: delete task `"a"` from the sample store, then task
`"b"`, undo once, and check only `"b"` comes back, at the end. -/
theorem delete_then_undo_restores_witness :
    (undoDelete (deleteTask (TaskId.str "a") s0)).tasks.getLast? = some tA ∧
      (undoDelete (deleteTask (TaskId.str "b")
        (deleteTask (TaskId.str "a") s0))).tasks.getLast? = some tB ∧
      tA ∉ (undoDelete (deleteTask (TaskId.str "b")
        (deleteTask (TaskId.str "a") s0))).tasks ∧
      undoDelete (undoDelete (deleteTask (TaskId.str "b")
        (deleteTask (TaskId.str "a") s0))) =
        undoDelete (deleteTask (TaskId.str "b") (deleteTask (TaskId.str "a") s0)) :=
  delete_then_undo_restores s0 (TaskId.str "a") (TaskId.str "b") tA tB
    (by decide) (by decide)

/-! ### C3: the sanitizer's invariants -/

/-- The sanitized `timeTaken` is always positive: a positive value is
kept, everything else (missing, NaN, zero or negative) becomes 1. -/
theorem sanTimeTaken_pos (r : RawTask) : 0 < sanTimeTaken r := by
  unfold sanTimeTaken
  rcases hr : r.timeTaken with _ | v
  · exact one_pos
  · dsimp only
    by_cases hv : 0 < v
    · rwa [if_pos hv]
    · rw [if_neg hv]
      exact one_pos

/-- The id chosen by `sanId` was not seen before, and the seen-set
extended with it still only holds generated ids below the new counter. -/
theorem sanId_fresh (seen : List TaskId) (ctr : Nat) (r : RawTask)
    (hinv : ∀ n, TaskId.gen n ∈ seen → n < ctr) :
    (sanId seen ctr r).1 ∉ seen ∧
      ∀ n, TaskId.gen n ∈ (sanId seen ctr r).1 :: seen → n < (sanId seen ctr r).2 := by
  have hgen : ∀ m, ctr ≤ m → TaskId.gen m ∉ seen :=
    fun m hm hmem => absurd (hinv m hmem) (not_lt.mpr hm)
  unfold sanId
  rcases hr : r.id with _ | s
  · dsimp only
    rw [if_neg (hgen ctr le_rfl)]
    refine ⟨hgen ctr le_rfl, fun n hn => ?_⟩
    rcases List.mem_cons.mp hn with h | h
    · have : n = ctr := by
        injection h
      omega
    · exact Nat.lt_succ_of_lt (hinv n h)
  · dsimp only
    by_cases hs : s ≠ ""
    · rw [if_pos hs]
      dsimp only
      by_cases hmem : TaskId.str s ∈ seen
      · rw [if_pos hmem]
        refine ⟨hgen ctr le_rfl, fun n hn => ?_⟩
        rcases List.mem_cons.mp hn with h | h
        · have : n = ctr := by
            injection h
          omega
        · exact Nat.lt_succ_of_lt (hinv n h)
      · rw [if_neg hmem]
        refine ⟨hmem, fun n hn => ?_⟩
        rcases List.mem_cons.mp hn with h | h
        · exact absurd h (by simp)
        · exact hinv n h
    · rw [if_neg hs]
      dsimp only
      rw [if_neg (hgen ctr le_rfl)]
      refine ⟨hgen ctr le_rfl, fun n hn => ?_⟩
      rcases List.mem_cons.mp hn with h | h
      · have : n = ctr := by
          injection h
        omega
      · exact Nat.lt_succ_of_lt (hinv n h)

/-- Along `sanitizeGo`, when every generated id seen so far is below the
counter, the produced ids are pairwise distinct and all avoid the seen
set. -/
theorem sanitizeGo_fresh (now : Int) (l : List RawTask) :
    ∀ (idx : Nat) (seen : List TaskId) (ctr : Nat),
      (∀ n, TaskId.gen n ∈ seen → n < ctr) →
      ((sanitizeGo now l idx seen ctr).map Task.id).Nodup ∧
        ∀ x ∈ (sanitizeGo now l idx seen ctr).map Task.id, x ∉ seen := by
  induction l with
  | nil =>
    intro idx seen ctr _
    simp [sanitizeGo]
  | cons r rest ih =>
    intro idx seen ctr hinv
    have hrec := sanId_fresh seen ctr r hinv
    have hih := ih (idx + 1) ((sanId seen ctr r).1 :: seen) (sanId seen ctr r).2 hrec.2
    have hgo : sanitizeGo now (r :: rest) idx seen ctr =
        (sanitizeRecord now idx seen ctr r).1 ::
          sanitizeGo now rest (idx + 1) ((sanId seen ctr r).1 :: seen)
            (sanId seen ctr r).2 := rfl
    rw [hgo]
    have hid : (sanitizeRecord now idx seen ctr r).1.id = (sanId seen ctr r).1 := rfl
    rw [List.map_cons, List.nodup_cons, hid]
    refine ⟨⟨fun hmem => ?_, hih.1⟩, fun x hx => ?_⟩
    · exact hih.2 _ hmem (List.mem_cons_self _ _)
    · rcases List.mem_cons.mp hx with h | h
      · exact h ▸ hrec.1
      · exact fun hs => hih.2 x h (List.mem_cons_of_mem _ hs)

/-- Every task produced by `sanitizeGo` has positive `timeTaken`. -/
theorem sanitizeGo_timeTaken_pos (now : Int) (l : List RawTask) :
    ∀ (idx : Nat) (seen : List TaskId) (ctr : Nat),
      ∀ t ∈ sanitizeGo now l idx seen ctr, 0 < t.timeTaken := by
  induction l with
  | nil =>
    intro idx seen ctr t ht
    simp [sanitizeGo] at ht
  | cons r rest ih =>
    intro idx seen ctr t ht
    rcases List.mem_cons.mp ht with h | h
    · have : (sanitizeRecord now idx seen ctr r).1.timeTaken = sanTimeTaken r := rfl
      rw [h]
      rw [this]
      exact sanTimeTaken_pos r
    · exact ih (idx + 1) _ _ t h

/-- C3: for every raw input array, the sanitized output has pairwise
distinct task ids, and every output task's `timeTaken` is strictly
positive. -/
theorem sanitize_unique_ids_and_positive_time (now : Int) (input : List RawTask) :
    ((sanitizeTasks now input).map Task.id).Nodup ∧
      ∀ t ∈ sanitizeTasks now input, 0 < t.timeTaken :=
  ⟨(sanitizeGo_fresh now input 0 [] 0 (by simp)).1,
    sanitizeGo_timeTaken_pos now input 0 [] 0⟩

/-- A raw record with a duplicate-prone id `"d"` and a zero `timeTaken`. -/
def rdup : RawTask := ⟨some "d", none, none, some 0, none, none, none, none, none⟩

/-- C3 witness: sanitizing two records that both carry id `"d"` yields
distinct ids (the second gets a generated one), and the first output
task — whose raw `timeTaken` was 0 — has `timeTaken` 1 > 0. -/
theorem sanitize_unique_ids_and_positive_time_witness :
    ((sanitizeTasks 0 [rdup, rdup]).map Task.id).Nodup ∧
      0 < (⟨TaskId.str "d", "Untitled 1", 0, 1, Priority.medium, Status.todo,
        none, 0, none⟩ : Task).timeTaken :=
  ⟨(sanitize_unique_ids_and_positive_time 0 [rdup, rdup]).1,
    (sanitize_unique_ids_and_positive_time 0 [rdup, rdup]).2 _ (by decide)⟩

/-! ### C4: stamping `completedAt` on the Done transition -/

/-- The re-validation pass only ever rewrites `timeTaken`. -/
theorem revalidate_completedAt (i : TaskId) (p : TaskPatch) (t : Task) :
    (revalidate i p t).completedAt = t.completedAt := by
  unfold revalidate
  split <;> rfl

/-- The re-validation pass only ever rewrites `timeTaken`. -/
theorem revalidate_id (i : TaskId) (p : TaskPatch) (t : Task) :
    (revalidate i p t).id = t.id := by
  unfold revalidate
  split <;> rfl

/-- The re-validation pass only ever rewrites `timeTaken`. -/
theorem revalidate_status (i : TaskId) (p : TaskPatch) (t : Task) :
    (revalidate i p t).status = t.status := by
  unfold revalidate
  split <;> rfl

/-- Merging into a task that is already `Done` never stamps: the
transition guard `t.status !== 'Done'` fails, and a patch without
`completedAt` keeps the task's own value. -/
theorem updateMerge_completedAt_of_done (i : TaskId) (p : TaskPatch) (now : Int)
    (t : Task) (hts : t.status = Status.done) (hpc : p.completedAt = none) :
    (updateMerge i p now t).completedAt = t.completedAt := by
  unfold updateMerge
  by_cases h : t.id ≠ i
  · rw [if_pos h]
  · rw [if_neg h, if_neg (fun hc => hc.1 hts)]
    simp [mergePatch, hpc]

/-- The merge pass on the matched task, when the patch drives the status
to `Done`, supplies no `completedAt`, and the task is not yet `Done` and
has no `completedAt` of its own: the current time is stamped. -/
theorem updateMerge_stamps (i : TaskId) (p : TaskPatch) (now : Int) (t : Task)
    (hid : t.id = i) (hst : t.status ≠ Status.done) (hca : t.completedAt = none)
    (hps : p.status = some Status.done) (hpc : p.completedAt = none) :
    updateMerge i p now t = { mergePatch p t with completedAt := some now } := by
  unfold updateMerge
  rw [if_neg (by simp [hid])]
  rw [if_pos ⟨hst, by simp [mergePatch, hps], by simp [mergePatch, hpc, hca]⟩]

/-- C4 counterexample: the stamping guard also requires the merged
record to have no `completedAt` (`!merged.completedAt`), so a task whose
status is `Todo` but which still carries an old `completedAt` (value 5)
is NOT stamped with the current time 99 when patched to `Done`: the old
value 5 survives, refuting the claim's unconditional "sets that task's
completedAt to the current time". -/
theorem done_update_no_stamp_when_completedAt_set :
    ((updateTask (TaskId.str "c") { status := some Status.done } 99
        ⟨[⟨TaskId.str "c", "C", 0, 1, Priority.medium, Status.todo, none, 100,
          some 5⟩], none⟩).tasks.map Task.completedAt) = [some 5] ∧
      [some (5 : Int)] ≠ [some (99 : Int)] := by
  decide

/-- C4 (amended): for a stored task that is not `Done` AND has no
`completedAt`, updating it with a patch that sets status to `Done` and
supplies no `completedAt` stamps `completedAt` with the current time;
applying the same update again leaves the stamped value unchanged. -/
theorem done_transition_stamps_completedAt (s : StoreState) (i : TaskId)
    (p : TaskPatch) (now now2 : Int) (k : Nat)
    (hk : k < s.tasks.length)
    (hk1 : k < (updateTask i p now s).tasks.length)
    (hk2 : k < (updateTask i p now2 (updateTask i p now s)).tasks.length)
    (hid : (s.tasks.get ⟨k, hk⟩).id = i)
    (hst : (s.tasks.get ⟨k, hk⟩).status ≠ Status.done)
    (hca : (s.tasks.get ⟨k, hk⟩).completedAt = none)
    (hps : p.status = some Status.done)
    (hpc : p.completedAt = none) :
    ((updateTask i p now s).tasks.get ⟨k, hk1⟩).completedAt = some now ∧
      ((updateTask i p now2 (updateTask i p now s)).tasks.get
        ⟨k, hk2⟩).completedAt = some now := by
  have e1 : (updateTask i p now s).tasks.get ⟨k, hk1⟩ =
      revalidate i p (updateMerge i p now (s.tasks.get ⟨k, hk⟩)) := by
    rw [List.get_eq_getElem, List.get_eq_getElem]
    show (((s.tasks.map (updateMerge i p now)).map (revalidate i p))[k]) = _
    rw [List.getElem_map, List.getElem_map]
  have hfirst : ((updateTask i p now s).tasks.get ⟨k, hk1⟩).completedAt = some now := by
    rw [e1, revalidate_completedAt,
      updateMerge_stamps i p now _ hid hst hca hps hpc]
  refine ⟨hfirst, ?_⟩
  have e2 : (updateTask i p now2 (updateTask i p now s)).tasks.get ⟨k, hk2⟩ =
      revalidate i p (updateMerge i p now2
        ((updateTask i p now s).tasks.get ⟨k, hk1⟩)) := by
    rw [List.get_eq_getElem, List.get_eq_getElem]
    show ((((updateTask i p now s).tasks.map (updateMerge i p now2)).map
      (revalidate i p))[k]) = _
    rw [List.getElem_map, List.getElem_map]
  set v := (updateTask i p now s).tasks.get ⟨k, hk1⟩ with hv
  have hvs : v.status = Status.done := by
    rw [e1, revalidate_status,
      updateMerge_stamps i p now _ hid hst hca hps hpc]
    show (mergePatch p _).status = Status.done
    simp [mergePatch, hps]
  rw [e2, revalidate_completedAt, updateMerge_completedAt_of_done i p now2 v hvs hpc,
    hfirst]

/-- C4 witness: stamp the sample Todo task `tA` on its Done transition
at time 42, then repeat the update at time 43 and observe the stamp is
still 42. -/
theorem done_transition_stamps_completedAt_witness :
    ((updateTask (TaskId.str "a") { status := some Status.done } 42
        ⟨[tA], none⟩).tasks.get ⟨0, by decide⟩).completedAt = some 42 ∧
      ((updateTask (TaskId.str "a") { status := some Status.done } 43
        (updateTask (TaskId.str "a") { status := some Status.done } 42
          ⟨[tA], none⟩)).tasks.get ⟨0, by decide⟩).completedAt = some 42 :=
  done_transition_stamps_completedAt ⟨[tA], none⟩ (TaskId.str "a")
    { status := some Status.done } 42 43 0 (by decide) (by decide) (by decide)
    (by decide) (by decide) (by decide) rfl rfl

/-! ### C6: the `timeTaken > 0` invariant -/

/-- C6: the re-validation pass of `updateTask` (line 157) looks up the
task by the original id, so a patch that changes the id and supplies a
non-positive `timeTaken` escapes it: starting from the singleton store
holding `tA` (with `timeTaken = 5`), updating task `"a"` with the patch
`{ id: "q", timeTaken: 0 }` leaves a stored task with `timeTaken = 0`,
violating the invariant the code's own comment promises to ensure. -/
theorem updateTask_id_change_breaks_timeTaken :
    ((updateTask (TaskId.str "a")
        { id := some (TaskId.str "q"), timeTaken := some 0 } 0
        ⟨[tA], none⟩).tasks.map Task.timeTaken) = [0] ∧
      ¬ (∀ t ∈ (updateTask (TaskId.str "a")
          { id := some (TaskId.str "q"), timeTaken := some 0 } 0
          ⟨[tA], none⟩).tasks, 0 < t.timeTaken) := by
  decide

/-! ### C5: addTask -/

/-- The spec's example input:
`{title:"Call client", revenue:100, timeTaken:0, priority:"High", status:"Todo"}`. -/
def exAdd : AddInput :=
  { title := "Call client", revenue := 100, timeTaken := 0,
    priority := Priority.high, status := Status.todo }

/-- The task stored for `exAdd` at time 77 with generated id `gen 0`. -/
def exTask : Task :=
  ⟨TaskId.gen 0, "Call client", 100, 1, Priority.high, Status.todo, none, 77, none⟩

/-- C5: `addTask` appends exactly one task, leaving the rest of the
state alone; the new task takes the supplied id or the generated one,
coerces a non-positive `timeTaken` to 1 (keeping a positive one), stamps
`createdAt` with the current time regardless of any supplied value, sets
`completedAt` iff the initial status is `Done`, and copies the remaining
fields from the input. -/
theorem addTask_appends_one (t : AddInput) (now : Int) (fresh : TaskId)
    (s : StoreState) (nt : Task)
    (hlast : (addTask t now fresh s).tasks.getLast? = some nt) :
    (addTask t now fresh s).tasks = s.tasks ++ [nt] ∧
      (addTask t now fresh s).lastDeleted = s.lastDeleted ∧
      (t.id = none → nt.id = fresh) ∧
      (∀ j, t.id = some j → nt.id = j) ∧
      (t.timeTaken ≤ 0 → nt.timeTaken = 1) ∧
      (0 < t.timeTaken → nt.timeTaken = t.timeTaken) ∧
      nt.createdAt = now ∧
      (nt.completedAt ≠ none ↔ t.status = Status.done) ∧
      nt.title = t.title ∧ nt.revenue = t.revenue ∧ nt.priority = t.priority ∧
      nt.status = t.status ∧ nt.notes = t.notes := by
  have hnt : nt = ⟨t.id.getD fresh, t.title, t.revenue,
      if t.timeTaken ≤ 0 then 1 else t.timeTaken, t.priority, t.status, t.notes,
      now, if t.status = Status.done then some now else none⟩ := by
    have h := hlast
    unfold addTask at h
    rw [List.getLast?_concat] at h
    exact (Option.some.inj h).symm
  subst hnt
  refine ⟨by rfl, by rfl, ?_, ?_, ?_, ?_, rfl, ?_, rfl, rfl, rfl, rfl, rfl⟩
  · intro h
    simp [h]
  · intro j h
    simp [h]
  · intro h
    simp [if_pos h]
  · intro h
    simp [if_neg (not_le.mpr h)]
  · by_cases h : t.status = Status.done <;> simp [h]

/-- C5 witness: the spec's example — `addTask` on `exAdd` in the empty
store yields exactly the stored task `exTask`, whose `timeTaken` was
coerced to 1 and whose `completedAt` is unset. -/
theorem addTask_appends_one_witness :
    (addTask exAdd 77 (TaskId.gen 0) ⟨[], none⟩).tasks = [exTask] ∧
      exTask.timeTaken = 1 ∧ exTask.completedAt = none := by
  have h := addTask_appends_one exAdd 77 (TaskId.gen 0) ⟨[], none⟩ exTask
    (by decide)
  refine ⟨by simpa using h.1, h.2.2.2.2.1 (by decide), ?_⟩
  by_contra hne
  exact absurd (h.2.2.2.2.2.2.2.1.mp hne) (by decide)

/-! ### C7: completedAt resolution in sanitizer vs normalizer -/

/-- The `completedAt` field of the sanitizer output at offset `k` is a
pointwise function of the input record at `k` (it does not depend on the
seen set, the counter or the index). -/
theorem sanitizeGo_get_completedAt (now : Int) (l : List RawTask) :
    ∀ (idx : Nat) (seen : List TaskId) (ctr : Nat) (k : Nat)
      (hk : k < l.length) (hk2 : k < (sanitizeGo now l idx seen ctr).length),
      ((sanitizeGo now l idx seen ctr).get ⟨k, hk2⟩).completedAt =
        sanCompletedAt now (l.get ⟨k, hk⟩) := by
  induction l with
  | nil =>
    intro idx seen ctr k hk
    exact absurd hk (by simp)
  | cons r rest ih =>
    intro idx seen ctr k hk hk2
    cases k with
    | zero => rfl
    | succ n =>
      have hn : n < rest.length := by
        simpa using hk
      have hn2 : n < (sanitizeGo now rest (idx + 1) ((sanId seen ctr r).1 :: seen)
          (sanId seen ctr r).2).length := by
        simpa [sanitizeGo] using hk2
      exact ih (idx + 1) ((sanId seen ctr r).1 :: seen) (sanId seen ctr r).2 n hn hn2

/-- `normalizeGo` rewrites the record at offset `k` with
`normalizeRecord` at map index `idx + k`. -/
theorem normalizeGo_get (now : Int) (l : List RawTask) :
    ∀ (idx k : Nat) (hk : k < l.length) (hk2 : k < (normalizeGo now l idx).length),
      (normalizeGo now l idx).get ⟨k, hk2⟩ =
        normalizeRecord now (idx + k) (l.get ⟨k, hk⟩) := by
  induction l with
  | nil =>
    intro idx k hk
    exact absurd hk (by simp)
  | cons r rest ih =>
    intro idx k hk hk2
    cases k with
    | zero => rfl
    | succ n =>
      have hn : n < rest.length := by
        simpa using hk
      have hn2 : n < (normalizeGo now rest (idx + 1)).length := by
        simpa [normalizeGo] using hk2
      have : (normalizeGo now (r :: rest) idx).get ⟨n + 1, hk2⟩ =
          (normalizeGo now rest (idx + 1)).get ⟨n, hn2⟩ := rfl
      rw [this, ih (idx + 1) n hn hn2]
      have harith : idx + 1 + n = idx + (n + 1) := by omega
      rw [harith]
      rfl

/-- C7 counterexample: for the record
`{id:"x", status:"Done", createdAt: 0, completedAt: absent}` the
sanitizer resolves `completedAt` to the record's `createdAt` itself
(epoch 0), not to one day (86400000 ms) after it as the normalizer does
— the two rules differ, refuting the claim. -/
theorem sanitize_completedAt_not_one_day :
    (sanitizeTasks 50 [⟨some "x", some "T", some 1, some 1, some Priority.high,
        some Status.done, none, some 0, none⟩]).map Task.completedAt = [some 0] ∧
      (normalizeTasks 50 [⟨some "x", some "T", some 1, some 1, some Priority.high,
        some Status.done, none, some 0, none⟩]).map RawTask.completedAt =
        [some 86400000] ∧
      [some (0 : Int)] ≠ [some (86400000 : Int)] := by
  decide

/-- C7 (amended): for every raw record with status `Done`, no
`completedAt` and an explicit `createdAt`, the sanitizer resolves
`completedAt` to the record's `createdAt` itself, whereas the normalizer
synthesizes one day (24·3600·1000 ms) after `createdAt`: the sanitizer
does NOT follow the normalizer's one-day rule. -/
theorem sanitize_vs_normalize_completedAt (nowS nowN : Int)
    (input : List RawTask) (k : Nat) (c : Int)
    (hk : k < input.length)
    (hk1 : k < (sanitizeTasks nowS input).length)
    (hk2 : k < (normalizeTasks nowN input).length)
    (hst : (input.get ⟨k, hk⟩).status = some Status.done)
    (hcomp : (input.get ⟨k, hk⟩).completedAt = none)
    (hcre : (input.get ⟨k, hk⟩).createdAt = some c) :
    ((sanitizeTasks nowS input).get ⟨k, hk1⟩).completedAt = some c ∧
      ((normalizeTasks nowN input).get ⟨k, hk2⟩).completedAt =
        some (c + 24 * 3600 * 1000) := by
  constructor
  · show ((sanitizeGo nowS input 0 [] 0).get ⟨k, hk1⟩).completedAt = some c
    rw [sanitizeGo_get_completedAt nowS input 0 [] 0 k hk hk1]
    unfold sanCompletedAt sanStatus sanCreatedAt
    rw [hcomp, hst, hcre]
    rfl
  · show ((normalizeGo nowN input 0).get ⟨k, hk2⟩).completedAt =
      some (c + 24 * 3600 * 1000)
    rw [normalizeGo_get nowN input 0 k hk hk2]
    unfold normalizeRecord
    rw [hcomp, hst, hcre]
    rfl

/-- C7 witness: the amended statement at the concrete Done record
created at epoch 0. -/
theorem sanitize_vs_normalize_completedAt_witness :
    ((sanitizeTasks 50 [⟨some "x", some "T", some 1, some 1, some Priority.high,
        some Status.done, none, some 0, none⟩]).get ⟨0, by decide⟩).completedAt =
        some 0 ∧
      ((normalizeTasks 50 [⟨some "x", some "T", some 1, some 1, some Priority.high,
        some Status.done, none, some 0, none⟩]).get ⟨0, by decide⟩).completedAt =
        some (0 + 24 * 3600 * 1000) :=
  sanitize_vs_normalize_completedAt 50 50 _ 0 0 (by decide) (by decide)
    (by decide) rfl rfl rfl

/-! ### C8: immutability of `createdAt` -/

/-- C8 counterexample: `updateTask` merges the patch shallowly, so a
patch that includes `createdAt` overwrites it: patching task `"a"`
(created at 100) with `{ createdAt: 123 }` leaves it created at 123. -/
theorem updateTask_patch_overwrites_createdAt :
    ((updateTask (TaskId.str "a") { createdAt := some 123 } 0
        ⟨[tA], none⟩).tasks.map Task.createdAt) = [123] ∧
      tA.createdAt = 100 ∧ (123 : Int) ≠ 100 := by
  decide

/-- C8 (amended): `createdAt` is never changed by `deleteTask`, by
`undoDelete`, or by `updateTask` whose patch does not include
`createdAt`; a patch that does include `createdAt` overwrites it. -/
theorem createdAt_preserved (s : StoreState) (i : TaskId) (p : TaskPatch)
    (now : Int) (k : Nat) (hk : k < s.tasks.length)
    (hk2 : k < (updateTask i p now s).tasks.length)
    (hp : p.createdAt = none) :
    ((updateTask i p now s).tasks.get ⟨k, hk2⟩).createdAt =
        (s.tasks.get ⟨k, hk⟩).createdAt ∧
      (deleteTask i s).tasks ⊆ s.tasks ∧
      (undoDelete s).tasks.take s.tasks.length = s.tasks := by
  refine ⟨?_, fun t ht => (List.mem_filter.mp ht).1, ?_⟩
  · rw [List.get_eq_getElem, List.get_eq_getElem]
    show (((s.tasks.map (updateMerge i p now)).map (revalidate i p))[k]).createdAt = _
    rw [List.getElem_map, List.getElem_map]
    exact updateStep_createdAt i p now _ hp
  · cases h : s.lastDeleted with
    | none => simp [undoDelete, h, List.take_length]
    | some t => simp [undoDelete, h, List.take_left]

/-- C8 witness: the amended statement at a concrete store, position and
patch. -/
theorem createdAt_preserved_witness :
    ((updateTask (TaskId.str "a") { revenue := some 5 } 9 s0).tasks.get
        ⟨0, by decide⟩).createdAt = (s0.tasks.get ⟨0, by decide⟩).createdAt ∧
      (deleteTask (TaskId.str "a") s0).tasks ⊆ s0.tasks ∧
      (undoDelete s0).tasks.take s0.tasks.length = s0.tasks :=
  createdAt_preserved s0 (TaskId.str "a") { revenue := some 5 } 9 0
    (by decide) (by decide) rfl

/-! ### C10: patches may rewrite the id -/

/-- The merge pass on the matched task keeps the merged id, which is the
patch's id when the patch supplies one. -/
theorem updateMerge_id_of_match (i : TaskId) (p : TaskPatch) (now : Int)
    (t : Task) (hid : t.id = i) :
    (updateMerge i p now t).id = p.id.getD t.id := by
  unfold updateMerge
  rw [if_neg (by simp [hid])]
  dsimp only
  split
  · rfl
  · rfl

/-- C10: `updateTask` applies every patch field by shallow merge,
including `id`: the matched task ends up with the patch's id `j` while
every task whose id differs from the target is unchanged; consequently
there are inputs (patching a task's id to another existing id) after
which the store holds two tasks with the same id. -/
theorem updateTask_patches_id (s : StoreState) (i j : TaskId) (p : TaskPatch)
    (now : Int) (k : Nat) (hp : p.id = some j) (hji : j ≠ i)
    (hk : k < s.tasks.length)
    (hk2 : k < (updateTask i p now s).tasks.length)
    (hki : (s.tasks.get ⟨k, hk⟩).id = i) :
    ((updateTask i p now s).tasks.get ⟨k, hk2⟩).id = j ∧
      (∀ (m : Nat) (hm : m < s.tasks.length)
        (hm2 : m < (updateTask i p now s).tasks.length),
        (s.tasks.get ⟨m, hm⟩).id ≠ i →
        (updateTask i p now s).tasks.get ⟨m, hm2⟩ = s.tasks.get ⟨m, hm⟩) ∧
      ∃ (st : StoreState) (i0 : TaskId) (p0 : TaskPatch),
        (st.tasks.map Task.id).Nodup ∧
          ¬ ((updateTask i0 p0 0 st).tasks.map Task.id).Nodup := by
  have eget : ∀ (m : Nat) (hm : m < s.tasks.length)
      (hm2 : m < (updateTask i p now s).tasks.length),
      (updateTask i p now s).tasks.get ⟨m, hm2⟩ =
        revalidate i p (updateMerge i p now (s.tasks.get ⟨m, hm⟩)) := by
    intro m hm hm2
    rw [List.get_eq_getElem, List.get_eq_getElem]
    show (((s.tasks.map (updateMerge i p now)).map (revalidate i p))[m]) = _
    rw [List.getElem_map, List.getElem_map]
  refine ⟨?_, ?_, ⟨s0, TaskId.str "a", { id := some (TaskId.str "b") },
    by decide, by decide⟩⟩
  · rw [eget k hk hk2]
    have h1 : (updateMerge i p now (s.tasks.get ⟨k, hk⟩)).id = j := by
      rw [updateMerge_id_of_match i p now _ hki, hp]
      rfl
    rw [revalidate_of_ne i p _ (by rw [h1]; exact hji), h1]
  · intro m hm hm2 hne
    rw [eget m hm hm2, updateMerge_of_ne i p now _ hne, revalidate_of_ne i p _ hne]

/-- C10 witness: patch task `"a"` of the sample store to id `"b"` — the
matched task now carries id `"b"` and the other task (id `"b"`) is
untouched, so two stored tasks share the id `"b"`. -/
theorem updateTask_patches_id_witness :
    ((updateTask (TaskId.str "a") { id := some (TaskId.str "b") } 0
        s0).tasks.get ⟨0, by decide⟩).id = TaskId.str "b" ∧
      (updateTask (TaskId.str "a") { id := some (TaskId.str "b") } 0
        s0).tasks.get ⟨1, by decide⟩ = s0.tasks.get ⟨1, by decide⟩ := by
  have h := updateTask_patches_id s0 (TaskId.str "a") (TaskId.str "b")
    { id := some (TaskId.str "b") } 0 0 rfl (by decide) (by decide) (by decide)
    (by decide)
  exact ⟨h.1, h.2.1 1 (by decide) (by decide) (by decide)⟩

/-! ### C9: metrics of the empty list -/

/-- C9: on the empty task list the derived metrics are exactly the fixed
`INITIAL_METRICS` value — every aggregate 0 and the lowest grade — with
no division performed. -/
theorem metrics_empty_eq_initial :
    metricsOf [] = INITIAL_METRICS ∧
      INITIAL_METRICS =
        ⟨0, 0, 0, 0, 0, Grade.needsImprovement⟩ := by
  constructor <;> rfl

end TaskGlitch
